import Mathlib

/-!
Verification development for the person-page parsers of the cinemagoer
repository (src/imdb/parser/http/personParser.py).

The per-page rule tables, transform functions, postprocess hooks and the
helper functions `extract_notes` and `_process_person_award` are translated
directly from the source file.  The generic rule-evaluation engine
(`Path`/`Rule`/`Rules` of piculet) and the parser base class
(`DOMParserBase`) are not part of the source tree; they are modelled from
the specification (sections 4.1-4.3 and 7 of spec.md), as are the external
helpers `analyze_imdbid`, `analyze_name`, `build_movie`, `build_person` and
the Python library functions (`str.find`, `datetime.strptime`, `int`).
-/

set_option autoImplicit false

namespace Cinemagoer

/-- A Python value as produced by the extraction engine: `pynone` is Python
`None`, `str` a string, `vint` an integer, `vlist` a list, `vmap` an
insertion-ordered dictionary, and `movie`/`person` are the opaque domain
objects produced by the external builders `build_movie`/`build_person`
(modelled as records of the title/name and the optional identifier). -/
inductive Value where
  | pynone : Value
  | str : String → Value
  | vint : Int → Value
  | vlist : List Value → Value
  | vmap : List (String × Value) → Value
  | movie : String → Option String → Value
  | person : String → Option String → Value
deriving Repr

/-- An insertion-ordered string-keyed dictionary, as Python `dict`:
keys are unique, updates keep the original position, new keys append. -/
abbrev AList := List (String × Value)

/-- Python `d[k]` / `d.get(k)`: first (and only) binding of `k`. -/
def alookup : AList → String → Option Value
  | [], _ => none
  | (k0, v0) :: rest, k => if k0 = k then some v0 else alookup rest k

/-- Python `d[k] = v`: overwrite in place if present, else append. -/
def dset : AList → String → Value → AList
  | [], k, v => [(k, v)]
  | (k0, v0) :: rest, k, v =>
      if k0 = k then (k0, v) :: rest else (k0, v0) :: dset rest k v

/-- Python `d.update(e)`: set each binding of `e` in order. -/
def dupdate (d : AList) (e : AList) : AList :=
  e.foldl (fun acc kv => dset acc kv.1 kv.2) d

/-- Python `del d[k]` / `d.pop(k, default)`: remove the binding of `k`. -/
def dpop : AList → String → AList
  | [], _ => []
  | (k0, v0) :: rest, k => if k0 = k then rest else (k0, v0) :: dpop rest k

/-- The keys of a dictionary, in order. -/
def dkeys (d : AList) : List String := d.map Prod.fst

/-- Python truthiness of a value. -/
def pyTruthy : Value → Bool
  | .pynone => false
  | .str s => !(s == "")
  | .vint i => !(i == 0)
  | .vlist l => !l.isEmpty
  | .vmap m => !m.isEmpty
  | .movie _ _ => true
  | .person _ _ => true

/-- Truthiness of `d.get(k)` (missing key is `None`, hence falsy). -/
def truthyOpt (v : Option Value) : Bool :=
  match v with
  | some v0 => pyTruthy v0
  | none => false

/-- Python `x.get(k) or default` for string-valued fields: the default is
used when the field is missing, `None`, or an empty (falsy) string. -/
def pyGetStrOr (x : AList) (k : String) (d : String) : String :=
  match alookup x k with
  | some (.str s) => if s == "" then d else s
  | _ => d

/-- Whether a value is Python `None`. -/
def Value.isNone : Value → Bool
  | .pynone => true
  | _ => false

/-- A document node, as exposed by the document model adapter (spec 4.1):
`sq` evaluates a scalar query (text/attribute results, in document order)
and `nq` evaluates a node-set query, both relative to this node.  Queries
that match nothing return the empty list, never an error. -/
inductive Node where
  | mk : (String → List String) → (String → List Node) → Node

/-- Scalar-query evaluation at a node. -/
def Node.sq : Node → String → List String
  | .mk f _, q => f q

/-- Node-set-query evaluation at a node. -/
def Node.nq : Node → String → List Node
  | .mk _ g, q => g q

/-- Model of Python `s.strip()`: drop whitespace from both ends.  (The
core `String.trim` is avoided throughout because it does not reduce
definitionally; all helpers work on the character list.) -/
def pyStrip (s : String) : String :=
  String.mk (((s.toList.dropWhile Char.isWhitespace).reverse.dropWhile
    Char.isWhitespace).reverse)

/-- Model of Python `s.lower()`. -/
def pyLower (s : String) : String :=
  String.mk (s.toList.map Char.toLower)

/-- Split a character list on a single separator character, keeping empty
groups, as Python `s.split(sep)` for a one-character separator. -/
def splitChar (sep : Char) : List Char → List (List Char)
  | [] => [[]]
  | c :: cs =>
      if c == sep then [] :: splitChar sep cs
      else
        match splitChar sep cs with
        | [] => [[c]]
        | g :: gs => (c :: g) :: gs

/-- Collapse every run of whitespace to a single space, as the substitution
`_re_spaces.sub(" ", s)` for `_re_spaces = re.compile(r"\s+")` does. -/
def collapseWSAux : Bool → List Char → List Char
  | _, [] => []
  | prevWS, c :: rest =>
      if c.isWhitespace then
        (if prevWS then [] else [' ']) ++ collapseWSAux true rest
      else c :: collapseWSAux false rest

/-- The regex substitution `_re_spaces.sub(" ", s)` from personParser.py. -/
def reSpacesSub (s : String) : String :=
  String.mk (collapseWSAux false s.toList)

/-- Python `s.strip(":")`: drop colons from both ends. -/
def stripColon (s : String) : String :=
  String.mk (((s.toList.dropWhile (fun c => c == ':')).reverse.dropWhile
    (fun c => c == ':')).reverse)

/-- Model of Python `str.find`: index of the first occurrence, `none` when
Python would return `-1`. -/
def pyFind (cs : List Char) (c : Char) : Option Nat :=
  match cs with
  | [] => none
  | x :: rest => if x == c then some 0 else (pyFind rest c).map (fun i => i + 1)

/-- Model of Python `str.rfind`: index of the last occurrence, `none` when
Python would return `-1`. -/
def pyRFind (cs : List Char) (c : Char) : Option Nat :=
  match cs with
  | [] => none
  | x :: rest =>
      match pyRFind rest c with
      | some i => some (i + 1)
      | none => if x == c then some 0 else none

/-- The number denoted by a list of decimal digits. -/
def digitsToNat (cs : List Char) : Nat :=
  cs.foldl (fun a c => a * 10 + (c.toNat - 48)) 0

/-- A non-empty all-digit character list, or `none`. -/
def pyDigitsL (cs : List Char) : Option Nat :=
  if !cs.isEmpty && cs.all Char.isDigit then some (digitsToNat cs) else none

/-- Model of Python `int(s)` on a string: strip whitespace, optional
sign, then decimal digits; `none` models the `ValueError` raised
otherwise. -/
def pyInt (s : String) : Option Int :=
  match (pyStrip s).toList with
  | '-' :: rest => (pyDigitsL rest).map (fun n => -(n : Int))
  | '+' :: rest => (pyDigitsL rest).map (fun n => (n : Int))
  | cs => (pyDigitsL cs).map (fun n => (n : Int))

/-- Lower-cased English month names, for the `%B` directive. -/
def monthNames : List String :=
  ["january", "february", "march", "april", "may", "june", "july",
   "august", "september", "october", "november", "december"]

/-- One-based month number of a month name (case-insensitive, as Python
`strptime`). -/
def monthIndex (s : String) : Option Nat :=
  (monthNames.findIdx? (fun m => m == pyLower s)).map (fun i => i + 1)

/-- Days in each month of the default `strptime` year 1900 (not a leap
year, so February has 28 days). -/
def monthLen1900 : Nat → Nat
  | 1 => 31 | 2 => 28 | 3 => 31 | 4 => 30 | 5 => 31 | 6 => 30
  | 7 => 31 | 8 => 31 | 9 => 30 | 10 => 31 | 11 => 30 | 12 => 31
  | _ => 0

/-- The decimal digits of a number below 100, as a character list. -/
def natDigits2 (n : Nat) : List Char :=
  if n < 10 then [Char.ofNat (48 + n)]
  else [Char.ofNat (48 + n / 10), Char.ofNat (48 + n % 10)]

/-- Zero-padded two-digit rendering, as `strftime` `%m`/`%d`. -/
def pad2 (n : Nat) : String :=
  if n < 10 then String.mk ('0' :: natDigits2 n) else String.mk (natDigits2 n)

/-- Modelled from the spec: the date-assembly step uses the external
function `datetime.strptime(s, "%B %d").strftime("%m-%d")`; `none` models
the `ValueError` raised when `s` does not match the format. -/
def strptimeBD (s : String) : Option String :=
  match splitChar ' ' s.toList with
  | [m, d] =>
      match monthIndex (String.mk m), pyDigitsL d with
      | some mi, some dn =>
          if 1 ≤ dn && dn ≤ monthLen1900 mi && d.length ≤ 2 then
            some (pad2 mi ++ "-" ++ pad2 dn)
          else none
      | _, _ => none
  | _ => none

/-- The first maximal run of decimal digits in a character list. -/
def firstDigitRun : List Char → List Char
  | [] => []
  | c :: rest =>
      if c.isDigit then c :: rest.takeWhile Char.isDigit
      else firstDigitRun rest

/-- Modelled from the spec: `analyze_imdbid` is an external helper that
extracts a canonical identifier from a URL-like string and returns `None`
when no pattern matches; modelled as the first run of digits. -/
def analyze_imdbid (s : String) : Option String :=
  match firstDigitRun s.toList with
  | [] => none
  | run => some (String.mk run)

/-- `analyze_imdbid` applied to a field that may be missing (`None`). -/
def analyze_imdbidOpt (v : Option Value) : Option String :=
  match v with
  | some (.str s) => analyze_imdbid s
  | _ => none

/-- Modelled from the spec: `analyze_name` is an external helper that
splits a display name into structured name fields; modelled as a mapping
holding the trimmed name. -/
def analyze_name (s : String) : Value :=
  .vmap [("name", .str (pyStrip s))]

/-- Modelled from the spec: `build_movie` is an external builder returning
a best-effort domain object from a title and an optional identifier. -/
def build_movie (title : String) (movieID : Option String) : Value :=
  .movie title movieID

/-- Modelled from the spec: `build_person` is the analogous external
builder for person references. -/
def build_person (name : String) (personID : Option String) : Value :=
  .person name personID

/-- A scalar query, evaluated relative to a context node. -/
abbrev Q := Node → List String

/-- A node-set query, evaluated relative to a context node. -/
abbrev NodeQ := Node → List Node

/-- A transform function attached to a rule: a Python callable that may
raise (the `Except.error` carries the Python exception class name). -/
abbrev Transform := Value → Except String Value

/-- The scalar query with the given XPath source text. -/
def SQ (q : String) : Q := fun n => n.sq q

/-- The node-set query with the given XPath source text. -/
def NQ (q : String) : NodeQ := fun n => n.nq q

/-- Modelled from the spec: a rule key is a literal string or is derived
from a query (piculet `Path` keys); the derived form joins the matched
strings and applies the declared key transform. -/
inductive RKey where
  | lit : String → RKey
  | fromQ : Q → (String → String) → RKey

/-- Modelled from the spec: a piculet `Path` extractor — a scalar query
whose matches are concatenated (the default `concat` reducer) and then
passed through the optional transform. -/
structure PathE where
  q : Q
  tr : Option Transform

/-- Modelled from the spec: a piculet `Rule` — a key, an optional
rule-level `foreach` query, and an extractor of type `E` (a `Path` or a
nested rule set, fixed per nesting level below). -/
structure GRule (E : Type) where
  key : RKey
  fe : Option NodeQ
  ext : E

/-- Modelled from the spec: a piculet `Rules` extractor — optional
`section` re-rooting query, optional `foreach` query, the ordered rules,
and an optional transform applied to each produced mapping. -/
structure RulesE (E : Type) where
  sec : Option NodeQ
  fe : Option NodeQ
  rules : List (GRule E)
  tr : Option Transform

/-- The type of extractor evaluators: `Except.error` is a raised Python
exception, `Option.none` is the "no result" sentinel (`_EMPTY`). -/
abbrev EvalE (E : Type) := E → Node → Except String (Option Value)

/-- Modelled from the spec (4.2 step 3c): evaluate a `Path` extractor —
no match yields no result; matches are concatenated and transformed, a
`None` returned by the transform again yields no result. -/
def PathE.eval (p : PathE) (n : Node) : Except String (Option Value) :=
  match p.q n with
  | [] => .ok none
  | vs =>
      let s := String.join vs
      match p.tr with
      | none => .ok (some (.str s))
      | some f =>
          match f (.str s) with
          | .error e => .error e
          | .ok v => .ok (if v.isNone then none else some v)

/-- Modelled from the spec (4.2 step 3a): resolve a rule key — a literal,
or the joined matches of the key query passed through the key transform
(no match means the rule produces nothing). -/
def RKey.resolve : RKey → Node → Option String
  | .lit s, _ => some s
  | .fromQ q tr, n =>
      match q n with
      | [] => none
      | vs => some (tr (String.join vs))

/-- Modelled from the spec (4.2 step 1): re-root the context node to the
first match of the `section` query; no match yields no result. -/
def sectionRoot (sec : Option NodeQ) (n : Node) : Option Node :=
  match sec with
  | none => some n
  | some s => (s n).head?

/-- Modelled from the spec (4.2 steps 3-3f and 7): evaluate one rule —
resolve the key, evaluate the extractor (per matched node when the rule
has its own `foreach`), and absorb any transform failure at this rule
boundary so that the field is omitted rather than an exception raised. -/
def GRule.extract {E : Type} (evalE : EvalE E) (r : GRule E) (n : Node) : AList :=
  match r.key.resolve n with
  | none => []
  | some k =>
      match r.fe with
      | none =>
          match evalE r.ext n with
          | .error _ => []
          | .ok none => []
          | .ok (some v) => [(k, v)]
      | some f =>
          [(k, .vlist ((f n).filterMap (fun nd =>
              match evalE r.ext nd with
              | .ok (some v) => some v
              | _ => none)))]

/-- Modelled from the spec (4.2 steps 3 and 3e): evaluate the rules of a
rule set in declared order against a context node, accumulating a mapping
with last-write-wins updates. -/
def foldLayer {E : Type} (evalE : EvalE E) (rs : List (GRule E)) (n : Node) : AList :=
  rs.foldl (fun acc r => dupdate acc (r.extract evalE n)) []

/-- Modelled from the spec (4.2): evaluate a `Rules` extractor.  Without
`foreach` the rules are folded over the (possibly re-rooted) context node
and an empty mapping yields no result; with `foreach` one mapping is
produced per matched node (an empty node set gives the empty sequence)
and the transform is applied to each, its exceptions propagating to the
enclosing rule boundary. -/
def RulesE.eval {E : Type} (evalE : EvalE E) (R : RulesE E) (n : Node) :
    Except String (Option Value) :=
  match R.fe with
  | none =>
      match sectionRoot R.sec n with
      | none => .ok none
      | some root =>
          let m := foldLayer evalE R.rules root
          if m.isEmpty then .ok none
          else
            match R.tr with
            | none => .ok (some (.vmap m))
            | some f =>
                match f (.vmap m) with
                | .error e => .error e
                | .ok v => .ok (if v.isNone then none else some v)
  | some f =>
      match (f n).mapM (fun nd =>
          let m := match sectionRoot R.sec nd with
            | none => ([] : AList)
            | some root => foldLayer evalE R.rules root
          match R.tr with
          | none => Except.ok (Value.vmap m)
          | some g => g (.vmap m)) with
      | .error e => .error e
      | .ok ms => .ok (some (.vlist ms))

/-- An extractor one level above plain paths: a path, or a rule set over
path rules. -/
inductive Ext1 where
  | p : PathE → Ext1
  | rs : RulesE PathE → Ext1

/-- Evaluate an `Ext1` extractor. -/
def evalExt1 : EvalE Ext1 := fun e n =>
  match e with
  | .p pe => pe.eval n
  | .rs R => R.eval PathE.eval n

/-- A top-level extractor: a path, or a rule set over `Ext1` rules. -/
inductive Ext2 where
  | p : PathE → Ext2
  | rs : RulesE Ext1 → Ext2

/-- Evaluate an `Ext2` extractor. -/
def evalExt2 : EvalE Ext2 := fun e n =>
  match e with
  | .p pe => pe.eval n
  | .rs R => R.eval evalExt1 n

/-- Modelled from the spec (4.3 and 7): `DOMParserBase.parse` — evaluate
the root rule set against the document tree, then invoke the
`postprocess_data` hook; every per-document error is absorbed so that the
call never raises, degrading to the empty mapping. -/
def runParser (rules : List (GRule Ext2)) (post : AList → Except String AList)
    (n : Node) : AList :=
  match post (foldLayer evalExt2 rules n) with
  | .ok d => d
  | .error _ => []

/-- `extract_notes` from personParser.py: the substring strictly between
the first opening and the last closing parenthesis, stripped; the empty
string when either is absent (Python `find`/`rfind` returning `-1`). -/
def extract_notes (notes : String) : String :=
  match pyFind notes.toList '(', pyRFind notes.toList ')' with
  | some b, some e =>
      pyStrip (String.mk ((notes.toList.drop (b + 1)).take (e - (b + 1))))
  | _, _ => ""

/-- The transform `lambda x: x.strip()` (also `transformers.strip`):
raises `AttributeError` on a non-string value such as `None`. -/
def stripTf : Transform
  | .str s => .ok (.str (pyStrip s))
  | _ => .error "AttributeError"

namespace DOMHTMLMaindetailsParser

/-- The transform of the `name` rule: `lambda x: analyze_name(x)`. -/
def nameTf : Transform
  | .str s => .ok (analyze_name s)
  | _ => .error "TypeError"

/-- The maindetails death-notes transform
`lambda texts: next((t.strip() for t in texts if t and t.strip().startswith("(")), None)`.
It receives the concatenated matches (the default `concat` reducer), so
iterating `texts` yields single characters: the generator yields `"("`
when an opening parenthesis occurs anywhere, and the `next` default
`None` otherwise. -/
def deathNotesTf : Transform
  | .str s => .ok (if s.toList.contains '(' then .str "(" else .pynone)
  | _ => .error "TypeError"

/-- The `akas` transform `lambda x: x.strip().split("  ")`. -/
def akasTf : Transform
  | .str s => .ok (.vlist (((pyStrip s).splitOn "  ").map Value.str))
  | _ => .error "AttributeError"

/-- The `in development` transform: `build_movie(x.get("title") or "",
movieID=analyze_imdbid(x.get("link") or ""), ...)`; the `roleID` and
`status` arguments of the external builder are dropped by the model. -/
def inDevTf : Transform
  | .vmap x => .ok (build_movie (pyGetStrOr x "title" "")
      (analyze_imdbid (pyGetStrOr x "link" "")))
  | _ => .error "AttributeError"

/-- The `imdbID` transform `analyze_imdbid`. -/
def imdbidTf : Transform
  | .str s => .ok (match analyze_imdbid s with
      | some i => .str i
      | none => .pynone)
  | _ => .error "TypeError"

/-- `DOMHTMLMaindetailsParser._birth_rules`. -/
def _birth_rules : List (GRule Ext1) :=
  [ { key := .lit "birth date", fe := none,
      ext := .p { q := SQ ".//time[@itemprop=\"birthDate\"]/@datetime", tr := none } },
    { key := .lit "birth place", fe := none,
      ext := .p { q := SQ ".//a[starts-with(@href, \"/search/name?birth_place=\")]/text()",
                  tr := none } } ]

/-- `DOMHTMLMaindetailsParser._death_rules`. -/
def _death_rules : List (GRule Ext1) :=
  [ { key := .lit "death date", fe := none,
      ext := .p { q := SQ ".//time[@itemprop=\"deathDate\"]/@datetime", tr := none } },
    { key := .lit "death place", fe := none,
      ext := .p { q := SQ ".//a[starts-with(@href, \"/search/name?death_place=\")]/text()",
                  tr := none } },
    { key := .lit "death notes", fe := none,
      ext := .p { q := SQ ".//div[contains(@class, \"ipc-html-content-inner-div\")]/text()",
                  tr := some deathNotesTf } } ]

/-- `DOMHTMLMaindetailsParser.rules`. -/
def rules : List (GRule Ext2) :=
  [ { key := .lit "name", fe := none,
      ext := .p { q := SQ "//h1[@data-testid=\"hero__pageTitle\"]//text()",
                  tr := some nameTf } },
    { key := .lit "birth info", fe := none,
      ext := .rs { sec := some (NQ "//div[h4=\"Born:\"]"), fe := none,
                   rules := _birth_rules, tr := none } },
    { key := .lit "death info", fe := none,
      ext := .rs { sec := some (NQ "//div[h4=\"Died:\"]"), fe := none,
                   rules := _death_rules, tr := none } },
    { key := .lit "headshot", fe := none,
      ext := .p { q := SQ "(//section[contains(@class, \"ipc-page-section\")])[1]//div[contains(@class, \"ipc-poster\")]/img[@class=\"ipc-image\"]/@src",
                  tr := none } },
    { key := .lit "akas", fe := none,
      ext := .p { q := SQ "//div[h4=\"Alternate Names:\"]/text()", tr := some akasTf } },
    { key := .lit "in development", fe := none,
      ext := .rs { sec := none, fe := some (NQ "//div[starts-with(@class,\"devitem\")]"),
                   rules := [ { key := .lit "link", fe := none,
                                ext := .p { q := SQ "./a/@href", tr := none } },
                              { key := .lit "title", fe := none,
                                ext := .p { q := SQ "./a/text()", tr := none } } ],
                   tr := some inDevTf } },
    { key := .lit "imdbID", fe := none,
      ext := .p { q := SQ "//meta[@property=\"og:url\"]/@content", tr := some imdbidTf } } ]

/-- `DOMHTMLMaindetailsParser.postprocess_data`: flatten the `name`
sub-mapping into the result, then drop a present-but-falsy `birth date`
or `death date`. -/
def postprocess_data (data : AList) : Except String AList :=
  let data :=
    match alookup data "name" with
    | some (.vmap sub) => dupdate (dpop data "name") sub
    | _ => data
  let data :=
    match alookup data "birth date" with
    | some v => if pyTruthy v then data else dpop data "birth date"
    | none => data
  let data :=
    match alookup data "death date" with
    | some v => if pyTruthy v then data else dpop data "death date"
    | none => data
  .ok data

/-- `DOMHTMLMaindetailsParser().parse(document)`. -/
def parse (n : Node) : AList := runParser rules postprocess_data n

end DOMHTMLMaindetailsParser

namespace DOMHTMLBioParser

/-- The nick-names transform `lambda x: x.get("nickname") or ""`. -/
def nickTf : Transform
  | .vmap x => .ok (.str (pyGetStrOr x "nickname" ""))
  | _ => .error "AttributeError"

/-- The mini-biography transform: the text before the
`- IMDb Mini Biography By:` marker, `::`, and the author (or
`Anonymous`). -/
def miniBioTf : Transform
  | .vmap x =>
      let bio := pyStrip (((pyGetStrOr x "bio" "").splitOn "- IMDb Mini Biography By:").headD "")
      let credit := pyStrip (pyGetStrOr x "by" "")
      .ok (.str (bio ++ "::" ++ (if credit == "" then "Anonymous" else credit)))
  | _ => .error "AttributeError"

/-- The spouse transform
`lambda x: ("%s::%s" % (x.get("name").strip(), (_re_spaces.sub(" ", x.get("info") or "")).strip())).strip(":")`.
It raises `AttributeError` when the `name` field is absent (`None` has no
`strip`), and `TypeError` when the regex substitution receives a
non-string `info`. -/
def spouseTf : Transform
  | .vmap x =>
      match alookup x "name" with
      | some (.str nm) =>
          match alookup x "info" with
          | some (.str i) =>
              .ok (.str (stripColon (pyStrip nm ++ "::" ++ pyStrip (reSpacesSub i))))
          | none => .ok (.str (stripColon (pyStrip nm ++ "::")))
          | some .pynone => .ok (.str (stripColon (pyStrip nm ++ "::")))
          | some _ => .error "TypeError"
      | _ => .error "AttributeError"
  | _ => .error "AttributeError"

/-- The trade-mark transform `lambda x: x.get("trademark") or ""`. -/
def trademarkTf : Transform
  | .vmap x => .ok (.str (pyGetStrOr x "trademark" ""))
  | _ => .error "AttributeError"

/-- The trivia transform `lambda x: x.get("trivia_item") or ""`. -/
def triviaTf : Transform
  | .vmap x => .ok (.str (pyGetStrOr x "trivia_item" ""))
  | _ => .error "AttributeError"

/-- The quotes transform
`lambda x: (x.get("quote") or "").replace("\n", " ")`. -/
def quoteTf : Transform
  | .vmap x => .ok (.str (String.mk ((pyGetStrOr x "quote" "").toList.map (fun c => if c == Char.ofNat 10 then ' ' else c))))
  | _ => .error "AttributeError"

/-- The salary transform `"%s %s" % ((x.get("title") or "").strip(),
(x.get("info") or "").strip().replace(" - ", "::"))`. -/
def salaryTf : Transform
  | .vmap x =>
      .ok (.str (pyStrip (pyGetStrOr x "title" "") ++ " " ++
        ((pyStrip (pyGetStrOr x "info" "")).replace " - " "::")))
  | _ => .error "AttributeError"

/-- The bio death-notes transform `extract_notes`. -/
def extractNotesTf : Transform
  | .str s => .ok (.str (extract_notes s))
  | _ => .error "AttributeError"

/-- `DOMHTMLBioParser._birth_rules`. -/
def _birth_rules : List (GRule Ext1) :=
  [ { key := .lit "monthday", fe := none,
      ext := .p { q := SQ ".//a[starts-with(@href, \"/search/name/?birth_monthday=\")]/text()",
                  tr := none } },
    { key := .lit "year", fe := none,
      ext := .p { q := SQ ".//a[starts-with(@href, \"/search/name/?birth_year=\")]/text()",
                  tr := none } },
    { key := .lit "birth place", fe := none,
      ext := .p { q := SQ ".//a[starts-with(@href, \"/search/name/?birth_place=\")]/text()",
                  tr := none } } ]

/-- `DOMHTMLBioParser._death_rules`. -/
def _death_rules : List (GRule Ext1) :=
  [ { key := .lit "monthday", fe := none,
      ext := .p { q := SQ ".//a[contains(@href, \"monthday\")]/text()", tr := none } },
    { key := .lit "year", fe := none,
      ext := .p { q := SQ ".//a[starts-with(@href, \"/search/name/?death_date=\")][2]/text()",
                  tr := none } },
    { key := .lit "death place", fe := none,
      ext := .p { q := SQ ".//a[starts-with(@href, \"/search/name/?death_place=\")]/text()",
                  tr := none } },
    { key := .lit "death notes", fe := none,
      ext := .p { q := SQ ".//div[contains(@class, \"ipc-html-content-inner-div\")]/text()",
                  tr := some extractNotesTf } } ]

/-- The `section` query of the death-info rule set. -/
def deathSectionQuery : String :=
  "//ul[contains(@class, \"ipc-metadata-list\")]/li[@id=\"died\"]"

/-- The `section` query of the birth-info rule set. -/
def bornSectionQuery : String :=
  "//ul[contains(@class, \"ipc-metadata-list\")]/li[@id=\"born\"]"

/-- The `headshot` rule. -/
def rHeadshot : GRule Ext2 :=
  { key := .lit "headshot", fe := none,
    ext := .p { q := SQ "//div[contains(@class, \"ipc-poster\")]//img[contains(@class, \"ipc-image\")]/@src",
                tr := none } }

/-- The first `birth name` rule (current page layout). -/
def rBirthName1 : GRule Ext2 :=
  { key := .lit "birth name", fe := none,
    ext := .p { q := SQ "//li[@id=\"name\"]/div[contains(@class, \"ipc-metadata-list-item__content-container\")]//div[contains(@class, \"ipc-html-content-inner-div\")]/text()",
                tr := some stripTf } }

/-- The `nick names` rule. -/
def rNickNames : GRule Ext2 :=
  { key := .lit "nick names", fe := none,
    ext := .rs { sec := none,
                 fe := some (NQ "//li[@id=\"nicknames\"]//ul[contains(@class, \"ipc-inline-list\")]/li/span"),
                 rules := [ { key := .lit "nickname", fe := none,
                              ext := .p { q := SQ ".//text()", tr := some stripTf } } ],
                 tr := some nickTf } }

/-- The `birth info` rule. -/
def rBirthInfo : GRule Ext2 :=
  { key := .lit "birth info", fe := none,
    ext := .rs { sec := some (NQ bornSectionQuery),
                 fe := none,
                 rules := _birth_rules,
                 tr := none } }

/-- The `death info` rule. -/
def rDeathInfo : GRule Ext2 :=
  { key := .lit "death info", fe := none,
    ext := .rs { sec := some (NQ deathSectionQuery),
                 fe := none,
                 rules := _death_rules,
                 tr := none } }

/-- The second `birth name` rule (legacy `overviewTable` layout). -/
def rBirthName2 : GRule Ext2 :=
  { key := .lit "birth name", fe := none,
    ext := .p { q := SQ "//table[@id=\"overviewTable\"]//td[text()=\"Birth Name\"]/following-sibling::td[1]/text()",
                tr := some stripTf } }

/-- The `height` rule. -/
def rHeight : GRule Ext2 :=
  { key := .lit "height", fe := none,
    ext := .p { q := SQ "//li[@id=\"height\"]/div[contains(@class, \"ipc-metadata-list-item__content-container\")]//div[contains(@class, \"ipc-html-content-inner-div\")]/text()",
                tr := some stripTf } }

/-- The `mini biography` rule. -/
def rMiniBio : GRule Ext2 :=
  { key := .lit "mini biography", fe := none,
    ext := .rs { sec := none,
                 fe := some (NQ "//div[@data-testid=\"sub-section-mini_bio\"]"),
                 rules := [ { key := .lit "bio", fe := none,
                              ext := .p { q := SQ ".//text()", tr := none } },
                            { key := .lit "by", fe := none,
                              ext := .p { q := SQ ".//a[@name=\"ba\"]//text()", tr := none } } ],
                 tr := some miniBioTf } }

/-- The `spouse` rule. -/
def rSpouse : GRule Ext2 :=
  { key := .lit "spouse", fe := none,
    ext := .rs { sec := none,
                 fe := some (NQ "//a[@name=\"spouse\"]/following::table[1]//tr"),
                 rules := [ { key := .lit "name", fe := none,
                              ext := .p { q := SQ "./td[1]//text()", tr := none } },
                            { key := .lit "info", fe := none,
                              ext := .p { q := SQ "./td[2]//text()", tr := none } } ],
                 tr := some spouseTf } }

/-- The `trade mark` rule. -/
def rTradeMark : GRule Ext2 :=
  { key := .lit "trade mark", fe := none,
    ext := .rs { sec := none,
                 fe := some (NQ "//div[@data-testid=\"sub-section-trademark\"]//li[contains(@id, \"trademark_\")]"),
                 rules := [ { key := .lit "trademark", fe := none,
                              ext := .p { q := SQ ".//div[contains(@class, \"ipc-html-content-inner-div\")]/text()",
                                          tr := some stripTf } } ],
                 tr := some trademarkTf } }

/-- The `trivia` rule. -/
def rTrivia : GRule Ext2 :=
  { key := .lit "trivia", fe := none,
    ext := .rs { sec := none,
                 fe := some (NQ "//div[@data-testid=\"sub-section-trivia\"]//li[contains(@id, \"trivia_\")]"),
                 rules := [ { key := .lit "trivia_item", fe := none,
                              ext := .p { q := SQ ".//div[contains(@class, \"ipc-html-content-inner-div\")]/text()",
                                          tr := some stripTf } } ],
                 tr := some triviaTf } }

/-- The `quotes` rule. -/
def rQuotes : GRule Ext2 :=
  { key := .lit "quotes", fe := none,
    ext := .rs { sec := none,
                 fe := some (NQ "//div[@data-testid=\"sub-section-quotes\"]//li[contains(@id, \"quote_\")]"),
                 rules := [ { key := .lit "quote", fe := none,
                              ext := .p { q := SQ ".//div[contains(@class, \"ipc-html-content-inner-div\")]/text()",
                                          tr := some stripTf } } ],
                 tr := some quoteTf } }

/-- The `salary history` rule. -/
def rSalary : GRule Ext2 :=
  { key := .lit "salary history", fe := none,
    ext := .rs { sec := none,
                 fe := some (NQ "//div[@data-testid=\"sub-section-salary\"]//li"),
                 rules := [ { key := .lit "title", fe := none,
                              ext := .p { q := SQ ".//a/text()", tr := some stripTf } },
                            { key := .lit "info", fe := none,
                              ext := .p { q := SQ "string(.//a/following-sibling::text()[1])",
                                          tr := some stripTf } } ],
                 tr := some salaryTf } }

/-- `DOMHTMLBioParser.rules`, in declared order. -/
def rules : List (GRule Ext2) :=
  [rHeadshot, rBirthName1, rNickNames, rBirthInfo, rDeathInfo, rBirthName2,
   rHeight, rMiniBio, rSpouse, rTradeMark, rTrivia, rQuotes, rSalary]

/-- The date string assembled from the popped `year` value and the
reformatted `monthday` (`f"{year}-{monthday}"` / `year` / `monthday` /
empty). -/
def assembleDate (yearV : Option Value) (monthday : String) : String :=
  let yearS := match yearV with
    | some (.str s) => s
    | some (.vint i) => toString i
    | _ => ""
  let yearTruthy := match yearV with
    | some v => pyTruthy v
    | none => false
  if yearTruthy && !(monthday == "") then yearS ++ "-" ++ monthday
  else if yearTruthy then yearS
  else if !(monthday == "") then monthday
  else ""

/-- The `if "monthday" in info: monthday = datetime.strptime(info.pop("monthday"), "%B %d").strftime("%m-%d")`
step: the `ValueError` of `strptime` on a malformed value propagates
(`TypeError` models `strptime` on a non-string). -/
def monthdayStep (info : AList) : Except String String :=
  match alookup info "monthday" with
  | none => Except.ok ""
  | some (.str s) =>
      match strptimeBD s with
      | some md => Except.ok md
      | none => Except.error "ValueError"
  | some _ => Except.error "TypeError"

/-- The body of one iteration of the `for event in ["birth", "death"]`
loop of `DOMHTMLBioParser.postprocess_data`, after the `info` mapping has
been popped out of `data`: reformat `monthday`, assemble the date, merge
the remaining `info` fields, and re-strip `death notes`. -/
def processWith (event : String) (data : AList) (info : AList) :
    Except String AList :=
  (monthdayStep info).bind (fun monthday =>
    let info := dpop info "monthday"
    let yearV := alookup info "year"
    let info := dpop info "year"
    let theDate := assembleDate yearV monthday
    let data := if theDate == "" then data
                else dset data (event ++ " date") (.str theDate)
    let data := dupdate data info
    match alookup info "death notes" with
    | none => Except.ok data
    | some (.str s) => Except.ok (dset data "death notes" (.str (pyStrip s)))
    | some _ => Except.error "AttributeError")

/-- One iteration of the event loop: pop `f"{event} info"` (defaulting to
the empty mapping) and process it. -/
def processEvent (event : String) (data : AList) : Except String AList :=
  match alookup data (event ++ " info") with
  | none => processWith event (dpop data (event ++ " info")) []
  | some (.vmap m) => processWith event (dpop data (event ++ " info")) m
  | some _ => Except.error "TypeError"

/-- `DOMHTMLBioParser.postprocess_data`: assemble `birth date` and
`death date` from the `birth info`/`death info` sub-mappings and merge
their remaining fields, then wrap a lone string `nick names` into a
list. -/
def postprocess_data (data : AList) : Except String AList :=
  (processEvent "birth" data).bind (fun data =>
    (processEvent "death" data).bind (fun data =>
      match alookup data "nick names" with
      | some (.str s) => Except.ok (dset data "nick names" (.vlist [.str s]))
      | _ => Except.ok data))

/-- `DOMHTMLBioParser().parse(document)`. -/
def parse (n : Node) : AList := runParser rules postprocess_data n

end DOMHTMLBioParser

namespace DOMHTMLFilmographyParser

/-- The per-movie transform of the filmography rows:
`build_movie(x.get("title") or "", year=..., movieID=analyze_imdbid(x.get("link") or ""), ...)`;
the `year`, `rolesNoChar`, `additionalNotes` and `status` arguments of
the external builder are dropped by the model. -/
def movieTf : Transform
  | .vmap x => .ok (build_movie (pyGetStrOr x "title" "")
      (analyze_imdbid (pyGetStrOr x "link" "")))
  | _ => .error "AttributeError"

/-- `DOMHTMLFilmographyParser._film_rules`. -/
def _film_rules : List (GRule PathE) :=
  [ { key := .lit "link", fe := none,
      ext := { q := SQ ".//b/a/@href", tr := none } },
    { key := .lit "title", fe := none,
      ext := { q := SQ ".//b/a/text()", tr := none } },
    { key := .lit "notes", fe := none,
      ext := { q := SQ ".//div[@class=\"ipc-metadata-list-summary-item__c\"]//ul[contains(@class, \"ipc-metadata-list-summary-item__stl\")]//label/text()",
               tr := none } },
    { key := .lit "year", fe := none,
      ext := { q := SQ ".//span[@class=\"year_column\"]//text()", tr := some stripTf } },
    { key := .lit "status", fe := none,
      ext := { q := SQ "./a[@class=\"in_production\"]/text()", tr := none } },
    { key := .lit "rolesNoChar", fe := none,
      ext := { q := SQ ".//br/following-sibling::text()", tr := some stripTf } } ]

/-- `DOMHTMLFilmographyParser.rules`: one rule whose key is itself a
query (the job heading text, lower-cased) and whose extractor iterates
the `filmo-row` entries of the following sibling. -/
def rules : List (GRule Ext2) :=
  [ { key := .lit "filmography", fe := none,
      ext := .rs { sec := none,
                   fe := some (NQ "//div[contains(@id, \"filmo-head-\")]"),
                   rules := [ { key := .fromQ (SQ ".//a/text()") (fun s => pyLower s),
                                fe := none,
                                ext := .rs { sec := none,
                                             fe := some (NQ "./following-sibling::div[1]/div[contains(@class, \"filmo-row\")]"),
                                             rules := _film_rules,
                                             tr := some movieTf } } ],
                   tr := none } } ]

/-- `DOMHTMLFilmographyParser.postprocess_data`: merge the per-heading
job mappings into a single `filmography` mapping, skipping entries that
are not non-empty dictionaries. -/
def postprocess_data (data : AList) : Except String AList :=
  let jobsV := match alookup data "filmography" with
    | some v => if pyTruthy v then v else .vlist []
    | none => .vlist []
  match jobsV with
  | .vlist jobs =>
      let filmo := jobs.foldl (fun acc j =>
        match j with
        | .vmap m => if m.isEmpty then acc else dupdate acc m
        | _ => acc) []
      .ok (if filmo.isEmpty then data else dset data "filmography" (.vmap filmo))
  | .str _ => .ok data
  | .vmap _ => .ok data
  | _ => .error "TypeError"

/-- `DOMHTMLFilmographyParser().parse(document)`. -/
def parse (n : Node) : AList := runParser rules postprocess_data n

end DOMHTMLFilmographyParser

namespace DOMHTMLPersonGenresParser

/-- The class attribute `kind = "genres"`. -/
def kind : String := "genres"

/-- The `kind` override of the `person_keywords_parser` instance in
`_OBJECTS`. -/
def keywordsKind : String := "keywords"

/-- The per-movie transform
`lambda x: build_movie(x.get("title") + x.get("info").split("[")[0], analyze_imdbid(x.get("link")))`.
It raises `TypeError` when `title` is absent (`None + str`) and
`AttributeError` when `info` is absent (`None` has no `split`). -/
def movieTf : Transform
  | .vmap x =>
      match alookup x "title" with
      | some (.str t) =>
          match alookup x "info" with
          | some (.str i) =>
              .ok (build_movie (t ++ ((i.splitOn "[").headD ""))
                (analyze_imdbidOpt (alookup x "link")))
          | _ => .error "AttributeError"
      | _ => .error "TypeError"
  | _ => .error "AttributeError"

/-- `DOMHTMLPersonGenresParser.rules`. -/
def rules : List (GRule Ext2) :=
  [ { key := .lit "genres", fe := none,
      ext := .rs { sec := none,
                   fe := some (NQ "//b/a[@name]/following-sibling::a[1]"),
                   rules := [ { key := .fromQ (SQ "./text()") (fun s => pyLower s),
                                fe := none,
                                ext := .rs { sec := none,
                                             fe := some (NQ "../../following-sibling::ol[1]/li//a[1]"),
                                             rules := [ { key := .lit "link", fe := none,
                                                          ext := { q := SQ "./@href", tr := none } },
                                                        { key := .lit "title", fe := none,
                                                          ext := { q := SQ "./text()", tr := none } },
                                                        { key := .lit "info", fe := none,
                                                          ext := { q := SQ "./following-sibling::text()", tr := none } } ],
                                             tr := some movieTf } } ],
                   tr := none } } ]

/-- `DOMHTMLPersonGenresParser.postprocess_data`: the empty mapping for an
empty result, otherwise the whole result nested under the instance
`kind`. -/
def postprocess_data (k : String) (data : AList) : Except String AList :=
  .ok (if data.isEmpty then [] else [(k, .vmap data)])

/-- `DOMHTMLPersonGenresParser().parse(document)` (the default `genres`
instance). -/
def parse (n : Node) : AList := runParser rules (postprocess_data kind) n

/-- The `person_keywords_parser` instance (`kind = "keywords"`). -/
def parseKeywords (n : Node) : AList :=
  runParser rules (postprocess_data keywordsKind) n

end DOMHTMLPersonGenresParser

/-- One `if field: awards[k] = field.strip()` step of
`_process_person_award`: a falsy or missing field is skipped, a truthy
string is stripped and stored, and `strip` on a truthy non-string raises
`AttributeError`. -/
def awardSetStripped (awards : AList) (k : String) (v : Option Value) :
    Except String AList :=
  match v with
  | some (.str s) =>
      if s == "" then Except.ok awards
      else Except.ok (dset awards k (.str (pyStrip s)))
  | some v0 =>
      if pyTruthy v0 then Except.error "AttributeError" else Except.ok awards
  | none => Except.ok awards

/-- One `if field: awards[k] = field` step of `_process_person_award`
(used for `movies` and `shared with`, stored unmodified). -/
def awardSetRaw (awards : AList) (k : String) (v : Option Value) :
    Except String AList :=
  match v with
  | some v0 =>
      if pyTruthy v0 then Except.ok (dset awards k v0) else Except.ok awards
  | none => Except.ok awards

/-- The `if year: awards["year"] = int(year.strip())` step: the
`ValueError` of `int` on a non-numeric string propagates. -/
def awardSetYear (awards : AList) (v : Option Value) : Except String AList :=
  match v with
  | some (.str s) =>
      if s == "" then Except.ok awards
      else
        match pyInt (pyStrip s) with
        | some i => Except.ok (dset awards "year" (.vint i))
        | none => Except.error "ValueError"
  | some v0 =>
      if pyTruthy v0 then Except.error "AttributeError" else Except.ok awards
  | none => Except.ok awards

/-- `_process_person_award` from personParser.py.  Each output field is
inserted only when the corresponding input field is truthy, in source
order: year, result, prize, category, movies, award, shared with. -/
def _process_person_award (x : AList) : Except String AList := do
  let awards ← awardSetYear [] (alookup x "year")
  let awards ← awardSetStripped awards "result" (alookup x "result")
  let awards ← awardSetStripped awards "prize" (alookup x "prize")
  let awards ← awardSetStripped awards "category" (alookup x "category")
  let awards ← awardSetRaw awards "movies" (alookup x "movies")
  let awards ← awardSetStripped awards "award" (alookup x "award")
  let awards ← awardSetRaw awards "shared with" (alookup x "shared with")
  Except.ok awards

/-! Dictionary lemmas. -/

theorem alookup_dset (d : AList) (k1 k : String) (v1 : Value) :
    alookup (dset d k1 v1) k = if k1 = k then some v1 else alookup d k := by
  induction d with
  | nil => simp [dset, alookup]
  | cons kv rest ih =>
      obtain ⟨a, b⟩ := kv
      by_cases ha : a = k1
      · subst ha
        by_cases hk : a = k
        · simp [dset, alookup, hk]
        · simp [dset, alookup, hk]
      · by_cases hk1 : k1 = k
        · subst hk1
          have hak : ¬a = k1 := ha
          simp [dset, alookup, ha, hak, ih]
        · by_cases hak : a = k
          · have hkk1 : ¬k = k1 := fun hh => ha (hak.trans hh)
            simp [dset, alookup, ha, hak, hkk1, hk1]
          · simp [dset, alookup, ha, hak, hk1, ih]

theorem alookup_dpop_ne (d : AList) (k0 k : String) (h : k ≠ k0) :
    alookup (dpop d k0) k = alookup d k := by
  induction d with
  | nil => simp [dpop]
  | cons kv rest ih =>
      obtain ⟨a, b⟩ := kv
      by_cases ha : a = k0
      · subst ha
        have hak : ¬a = k := fun hh => h hh.symm
        simp [dpop, alookup, hak]
      · by_cases hak : a = k
        · simp [dpop, ha, alookup, hak, h]
        · simp [dpop, ha, alookup, hak, ih]

theorem alookup_dpop_none (d : AList) (k0 k : String)
    (h : alookup d k = none) : alookup (dpop d k0) k = none := by
  induction d with
  | nil => simp [dpop, alookup]
  | cons kv rest ih =>
      obtain ⟨a, b⟩ := kv
      by_cases hak : a = k
      · rw [hak] at h
        simp [alookup] at h
      · have hrest : alookup rest k = none := by simpa [alookup, hak] using h
        by_cases ha : a = k0
        · simpa [dpop, ha] using hrest
        · simp [dpop, ha, alookup, hak, ih hrest]

theorem dupdate_nil (d : AList) : dupdate d [] = d := rfl

theorem dupdate_cons (d : AList) (a : String) (b : Value) (e : AList) :
    dupdate d ((a, b) :: e) = dupdate (dset d a b) e := rfl

theorem dupdate_singleton (d : AList) (k : String) (v : Value) :
    dupdate d [(k, v)] = dset d k v := rfl

theorem alookup_dupdate_none (d e : AList) (k : String)
    (h : alookup e k = none) : alookup (dupdate d e) k = alookup d k := by
  induction e generalizing d with
  | nil => rfl
  | cons kv rest ih =>
      obtain ⟨a, b⟩ := kv
      by_cases ha : a = k
      · rw [ha] at h
        simp [alookup] at h
      · have hrest : alookup rest k = none := by simpa [alookup, ha] using h
        rw [dupdate_cons, ih _ hrest, alookup_dset]
        simp [ha]

/-! Lemmas about the award-field steps, for C9. -/

theorem exceptBind_ok {α β : Type} (m : Except String α)
    (f : α → Except String β) (b : β) (h : (m >>= f) = .ok b) :
    ∃ a, m = .ok a ∧ f a = .ok b := by
  cases m with
  | error e => simp [Bind.bind, Except.bind] at h
  | ok a => exact ⟨a, rfl, h⟩

theorem exceptBindE_ok {α β : Type} (m : Except String α)
    (f : α → Except String β) (b : β) (h : Except.bind m f = .ok b) :
    ∃ a, m = .ok a ∧ f a = .ok b := by
  cases m with
  | error e => simp [Except.bind] at h
  | ok a => exact ⟨a, rfl, h⟩

theorem beq_false_of_ne (s : String) (h : ¬s = "") : (s == "") = false := by
  cases hb : s == "" with
  | false => rfl
  | true => exact absurd (by simpa using hb) h

theorem awardSetStripped_lookup (a : AList) (k0 : String) (v : Option Value)
    (b : AList) (h : awardSetStripped a k0 v = .ok b) (k : String) (w : Value)
    (hl : alookup b k = some w) :
    alookup a k = some w ∨ (k = k0 ∧ truthyOpt v = true) := by
  unfold awardSetStripped at h
  split at h
  · rename_i s
    split at h
    · cases h
      exact Or.inl hl
    · rename_i hsb
      cases h
      rw [alookup_dset] at hl
      by_cases hk : k0 = k
      · subst hk
        refine Or.inr ⟨rfl, ?_⟩
        have hf : (s == "") = false := by
          cases hb : s == "" with
          | false => rfl
          | true => exact absurd (by simp [hb]) hsb
        simp [truthyOpt, pyTruthy, hf]
      · rw [if_neg hk] at hl
        exact Or.inl hl
  · rename_i v0 hns
    split at h
    · simp at h
    · rename_i hft
      cases h
      exact Or.inl hl
  · cases h
    exact Or.inl hl

theorem awardSetRaw_lookup (a : AList) (k0 : String) (v : Option Value)
    (b : AList) (h : awardSetRaw a k0 v = .ok b) (k : String) (w : Value)
    (hl : alookup b k = some w) :
    alookup a k = some w ∨ (k = k0 ∧ truthyOpt v = true) := by
  unfold awardSetRaw at h
  split at h
  · rename_i v0
    split at h
    · rename_i ht
      cases h
      rw [alookup_dset] at hl
      by_cases hk : k0 = k
      · subst hk
        exact Or.inr ⟨rfl, by simpa [truthyOpt] using ht⟩
      · rw [if_neg hk] at hl
        exact Or.inl hl
    · cases h
      exact Or.inl hl
  · cases h
    exact Or.inl hl

theorem awardSetYear_lookup (a : AList) (v : Option Value)
    (b : AList) (h : awardSetYear a v = .ok b) (k : String) (w : Value)
    (hl : alookup b k = some w) :
    alookup a k = some w ∨ (k = "year" ∧ truthyOpt v = true) := by
  unfold awardSetYear at h
  split at h
  · rename_i s
    split at h
    · cases h
      exact Or.inl hl
    · rename_i hsb
      split at h
      · rename_i i hpi
        cases h
        rw [alookup_dset] at hl
        by_cases hk : "year" = k
        · subst hk
          refine Or.inr ⟨rfl, ?_⟩
          have hf : (s == "") = false := by
            cases hb : s == "" with
            | false => rfl
            | true => exact absurd (by simp [hb]) hsb
          simp [truthyOpt, pyTruthy, hf]
        · rw [if_neg hk] at hl
          exact Or.inl hl
      · simp at h
  · rename_i v0 hns
    split at h
    · simp at h
    · cases h
      exact Or.inl hl
  · cases h
    exact Or.inl hl

theorem awardSetYear_year (v : Option Value) (b : AList)
    (h : awardSetYear [] v = .ok b) (w : Value)
    (hl : alookup b "year" = some w) :
    ∃ s, v = some (.str s) ∧ ∃ i, pyInt (pyStrip s) = some i ∧ w = .vint i := by
  unfold awardSetYear at h
  split at h
  · rename_i s
    split at h
    · cases h
      simp [alookup] at hl
    · split at h
      · rename_i i hpi
        cases h
        rw [alookup_dset] at hl
        simp at hl
        exact ⟨s, rfl, i, hpi, hl.symm⟩
      · simp at h
  · rename_i v0 hns
    split at h
    · simp at h
    · cases h
      simp [alookup] at hl
  · cases h
    simp [alookup] at hl

/-! Engine lemmas. -/

/-- The rule fold with an explicit accumulator. -/
def foldFrom {E : Type} (evalE : EvalE E) (rs : List (GRule E)) (n : Node)
    (acc : AList) : AList :=
  rs.foldl (fun acc r => dupdate acc (r.extract evalE n)) acc

theorem foldLayer_eq_foldFrom {E : Type} (evalE : EvalE E)
    (rs : List (GRule E)) (n : Node) :
    foldLayer evalE rs n = foldFrom evalE rs n [] := rfl

theorem foldFrom_cons {E : Type} (evalE : EvalE E) (r : GRule E)
    (rs : List (GRule E)) (n : Node) (acc : AList) :
    foldFrom evalE (r :: rs) n acc =
      foldFrom evalE rs n (dupdate acc (r.extract evalE n)) := rfl

theorem foldFrom_append {E : Type} (evalE : EvalE E)
    (as bs : List (GRule E)) (n : Node) (acc : AList) :
    foldFrom evalE (as ++ bs) n acc =
      foldFrom evalE bs n (foldFrom evalE as n acc) := by
  simp [foldFrom, List.foldl_append]

/-- A rule extraction is the empty mapping or a single binding at the
resolved key. -/
theorem GRule.extract_shape {E : Type} (evalE : EvalE E) (r : GRule E) (n : Node) :
    r.extract evalE n = [] ∨
      ∃ k v, r.key.resolve n = some k ∧ r.extract evalE n = [(k, v)] := by
  unfold GRule.extract
  cases hk : r.key.resolve n with
  | none => exact Or.inl rfl
  | some k =>
      cases hfe : r.fe with
      | none =>
          cases hev : evalE r.ext n with
          | error e => exact Or.inl rfl
          | ok ov =>
              cases ov with
              | none => exact Or.inl rfl
              | some v => exact Or.inr ⟨k, v, rfl, rfl⟩
      | some f => exact Or.inr ⟨k, _, rfl, rfl⟩

/-- A rule with a literal key different from `k` never contributes a
binding at `k`. -/
theorem extract_lit_ne {E : Type} (evalE : EvalE E) (r : GRule E) (n : Node)
    (s k : String) (hkey : r.key = .lit s) (hne : s ≠ k) :
    alookup (r.extract evalE n) k = none := by
  rcases GRule.extract_shape evalE r n with h | ⟨k1, v, hres, h⟩
  · simp [h, alookup]
  · rw [hkey] at hres
    simp [RKey.resolve] at hres
    subst hres
    simp [h, alookup, hne]

theorem alookup_foldFrom_preserve {E : Type} (evalE : EvalE E)
    (rs : List (GRule E)) (n : Node) (acc : AList) (k : String)
    (h : ∀ r ∈ rs, alookup (r.extract evalE n) k = none) :
    alookup (foldFrom evalE rs n acc) k = alookup acc k := by
  induction rs generalizing acc with
  | nil => rfl
  | cons r rest ih =>
      rw [foldFrom_cons, ih _ (fun r0 hr0 => h r0 (List.mem_cons_of_mem _ hr0)),
        alookup_dupdate_none _ _ _ (h r (List.mem_cons_self _ _))]

theorem isEmpty_false_of_alookup (m : AList) (k : String) (v : Value)
    (h : alookup m k = some v) : m.isEmpty = false := by
  cases m with
  | nil => simp [alookup] at h
  | cons kv rest => rfl

theorem alookup_singleton_some (k2 k : String) (v2 v : Value)
    (h : alookup [(k2, v2)] k = some v) : k2 = k ∧ v2 = v := by
  by_cases hk : k2 = k
  · subst hk
    simp [alookup] at h
    exact ⟨rfl, h⟩
  · simp [alookup, hk] at h

theorem alookup_foldFrom_none {E : Type} (evalE : EvalE E)
    (rs : List (GRule E)) (n : Node) (acc : AList) (k : String)
    (h : ∀ r ∈ rs, alookup (r.extract evalE n) k = none)
    (hacc : alookup acc k = none) :
    alookup (foldFrom evalE rs n acc) k = none := by
  induction rs generalizing acc with
  | nil => exact hacc
  | cons r rest ih =>
      rw [foldFrom_cons]
      refine ih _ (fun r0 hr0 => h r0 (List.mem_cons_of_mem _ hr0)) ?_
      rw [alookup_dupdate_none _ _ _ (h r (List.mem_cons_self _ _))]
      exact hacc

theorem alookup_foldFrom_some {E : Type} (evalE : EvalE E)
    (rs : List (GRule E)) (n : Node) (acc : AList) (k : String) (v : Value)
    (h : alookup (foldFrom evalE rs n acc) k = some v) :
    (∃ r ∈ rs, alookup (r.extract evalE n) k = some v) ∨
      alookup acc k = some v := by
  induction rs generalizing acc with
  | nil => exact Or.inr h
  | cons r rest ih =>
      rw [foldFrom_cons] at h
      rcases ih _ h with ⟨r0, hr0, hv⟩ | hacc
      · exact Or.inl ⟨r0, List.mem_cons_of_mem _ hr0, hv⟩
      · rcases GRule.extract_shape evalE r n with hsh | ⟨k1, v1, hres, hsh⟩
        · rw [hsh, dupdate_nil] at hacc
          exact Or.inr hacc
        · rw [hsh, dupdate_singleton, alookup_dset] at hacc
          by_cases hk : k1 = k
          · subst hk
            simp at hacc
            subst hacc
            exact Or.inl ⟨r, List.mem_cons_self _ _, by simp [hsh, alookup]⟩
          · simp [hk] at hacc
            exact Or.inr hacc

/-! Concrete documents used by the scenario claims. -/

/-- A node answering no scalar query. -/
def noSq : String → List String := fun _ => []

/-- A node answering no node-set query. -/
def noNq : String → List Node := fun _ => []

/-- A document in which no query matches. -/
def emptyDoc : Node := .mk noSq noNq

/-- A biography document in which both birth-name layouts are present:
the current `li[@id="name"]` layout and the legacy `overviewTable`
layout. -/
def c4doc : Node := .mk
  (fun q =>
    if q = "//li[@id=\"name\"]/div[contains(@class, \"ipc-metadata-list-item__content-container\")]//div[contains(@class, \"ipc-html-content-inner-div\")]/text()" then
      ["First Layout Name"]
    else if q = "//table[@id=\"overviewTable\"]//td[text()=\"Birth Name\"]/following-sibling::td[1]/text()" then
      ["Second Layout Name"]
    else [])
  noNq

/-- C4: in a rule set holding two rules that resolve to the same key, when
both rules produce (non-empty) values and no later rule touches the key,
the stored value is the one produced by the rule that appears later in
declared order (last-write-wins). -/
theorem C4_last_write_wins {E : Type} (evalE : EvalE E)
    (pre mid post : List (GRule E)) (r1 r2 : GRule E) (n : Node)
    (k : String) (v1 v2 : Value)
    (h1 : alookup (r1.extract evalE n) k = some v1)
    (h2 : alookup (r2.extract evalE n) k = some v2)
    (hpost : ∀ r ∈ post, alookup (r.extract evalE n) k = none) :
    ∃ m, RulesE.eval evalE ⟨none, none, pre ++ r1 :: mid ++ r2 :: post, none⟩ n
        = .ok (some (.vmap m)) ∧ alookup m k = some v2 := by
  rcases GRule.extract_shape evalE r2 n with hnil | ⟨k2, v2x, hres, hsingle⟩
  · rw [hnil] at h2
    simp [alookup] at h2
  · rw [hsingle] at h2
    obtain ⟨hk2, hv2⟩ := alookup_singleton_some _ _ _ _ h2
    rw [hk2, hv2] at hsingle
    have hlk : alookup (foldLayer evalE (pre ++ r1 :: mid ++ r2 :: post) n) k
        = some v2 := by
      rw [foldLayer_eq_foldFrom, foldFrom_append, foldFrom_cons,
        alookup_foldFrom_preserve _ _ _ _ _ hpost, hsingle, dupdate_singleton,
        alookup_dset]
      simp
    have hne : foldLayer evalE (pre ++ r1 :: mid ++ r2 :: post) n ≠ [] := by
      intro hx
      rw [hx] at hlk
      simp [alookup] at hlk
    refine ⟨foldLayer evalE (pre ++ r1 :: mid ++ r2 :: post) n, ?_, hlk⟩
    have hne2 : foldLayer evalE (pre ++ r1 :: (mid ++ r2 :: post)) n ≠ [] := by
      simpa using hne
    simp [RulesE.eval, sectionRoot, hne2]

/-- Witness for C4: the two `birth name` rules of `DOMHTMLBioParser` on a
document exhibiting both page layouts — the later (legacy-table) rule
wins. -/
theorem C4_last_write_wins_witness :
    ∃ m, RulesE.eval evalExt2
        ⟨none, none, [DOMHTMLBioParser.rBirthName1, DOMHTMLBioParser.rBirthName2], none⟩
        c4doc = .ok (some (.vmap m)) ∧
      alookup m "birth name" = some (.str "Second Layout Name") :=
  C4_last_write_wins evalExt2 [] [] [] DOMHTMLBioParser.rBirthName1
    DOMHTMLBioParser.rBirthName2 c4doc "birth name"
    (.str "First Layout Name") (.str "Second Layout Name")
    (by rfl) (by rfl) (by intro r hr; exact absurd hr (List.not_mem_nil r))

/-- Modelled from the spec: a parser instance owns only its immutable
rule configuration and `postprocess_data` hook.  A `parse` call reads the
configuration and leaves it unchanged: the in-place mutations performed by
`postprocess_data` act on the per-call result mapping (a fresh structure),
never on the shared class-level rules, which is why the embedded call
returns the configuration as its post-state. -/
structure ParserInstance where
  rules : List (GRule Ext2)
  post : AList → Except String AList

/-- One `parse` call on a parser instance: the produced mapping together
with the instance state after the call. -/
def parseCall (p : ParserInstance) (n : Node) : AList × ParserInstance :=
  (runParser p.rules p.post n, p)

/-- C7: `parse` is a deterministic function of the input document and the
immutable rule configuration — a call leaves the configuration unchanged,
and a second call on the post-state returns the identical mapping. -/
theorem C7_parse_idempotent (p : ParserInstance) (n : Node) :
    (parseCall p n).2 = p ∧
      (parseCall (parseCall p n).2 n).1 = (parseCall p n).1 :=
  ⟨rfl, rfl⟩

/-- The `Born:` block of the C2 scenario document, holding a single
`time[@itemprop="birthDate"]` element with `datetime="1960-05-17"`. -/
def bornDiv : Node := .mk
  (fun q => if q = ".//time[@itemprop=\"birthDate\"]/@datetime" then ["1960-05-17"] else [])
  noNq

/-- The C2 scenario document: a `div` whose `h4` text is `Born:` holding
the birth-date `time` element, and nothing else. -/
def c2doc : Node := .mk noSq
  (fun q => if q = "//div[h4=\"Born:\"]" then [bornDiv] else [])

/-- C2 (evaluation at the failing input): on the scenario 1 document the
parser leaves the birth date nested under `birth info` — the top-level
key `birth date` claimed by the spec is absent, because
`postprocess_data` only flattens the `name` sub-mapping (its later check
of a top-level `birth date` is dead code). -/
theorem C2_birthdate_nested :
    DOMHTMLMaindetailsParser.parse c2doc =
      [("birth info", .vmap [("birth date", .str "1960-05-17")]),
       ("in development", .vlist [])] ∧
    alookup (DOMHTMLMaindetailsParser.parse c2doc) "birth date" = none ∧
    alookup (DOMHTMLMaindetailsParser.parse c2doc) "birth info" =
      some (.vmap [("birth date", .str "1960-05-17")]) :=
  ⟨rfl, rfl, rfl⟩

/-- A `filmo-row` entry holding a movie link and title. -/
def filmoRow (href title : String) : Node := .mk
  (fun q =>
    if q = ".//b/a/@href" then [href]
    else if q = ".//b/a/text()" then [title]
    else [])
  noNq

/-- A `filmo-head-` job heading with its following row container. -/
def filmoHead (job : String) (rows : List Node) : Node := .mk
  (fun q => if q = ".//a/text()" then [job] else [])
  (fun q =>
    if q = "./following-sibling::div[1]/div[contains(@class, \"filmo-row\")]" then rows
    else [])

/-- The C3 scenario document: one job heading (`Actor`) with three
`filmo-row` entries and one (`Director`) with two. -/
def c3doc : Node := .mk noSq
  (fun q =>
    if q = "//div[contains(@id, \"filmo-head-\")]" then
      [filmoHead "Actor"
        [filmoRow "/title/tt0000001/" "Movie One",
         filmoRow "/title/tt0000002/" "Movie Two",
         filmoRow "/title/tt0000003/" "Movie Three"],
       filmoHead "Director"
        [filmoRow "/title/tt0000004/" "Movie Four",
         filmoRow "/title/tt0000005/" "Movie Five"]]
    else [])

/-- The keys of a mapping value. -/
def valueKeys : Value → List String
  | .vmap m => dkeys m
  | _ => []

/-- The lengths of the sequence values of a mapping value. -/
def valueSeqLens : Value → List Nat
  | .vmap m => m.map (fun kv =>
      match kv.2 with
      | .vlist l => l.length
      | _ => 0)
  | _ => []

/-- C3: on the scenario 3 document the `filmography` value is a mapping
with exactly the two lower-cased job names as keys, holding sequences of
length 3 and 2 respectively. -/
theorem C3_filmography_grouping :
    alookup (DOMHTMLFilmographyParser.parse c3doc) "filmography" =
      some (.vmap
        [("actor", .vlist
           [.movie "Movie One" (some "0000001"),
            .movie "Movie Two" (some "0000002"),
            .movie "Movie Three" (some "0000003")]),
         ("director", .vlist
           [.movie "Movie Four" (some "0000004"),
            .movie "Movie Five" (some "0000005")])]) ∧
    (alookup (DOMHTMLFilmographyParser.parse c3doc) "filmography").map valueKeys =
      some ["actor", "director"] ∧
    (alookup (DOMHTMLFilmographyParser.parse c3doc) "filmography").map valueSeqLens =
      some [3, 2] :=
  ⟨rfl, rfl, rfl⟩

/-- A nick-name `li`/`span` entry with the given text. -/
def nickSpan (s : String) : Node := .mk
  (fun q => if q = ".//text()" then [s] else [])
  noNq

/-- The C6 scenario document: exactly two nick-name entries. -/
def c6doc : Node := .mk noSq
  (fun q =>
    if q = "//li[@id=\"nicknames\"]//ul[contains(@class, \"ipc-inline-list\")]/li/span" then
      [nickSpan "Johnny", nickSpan "Duke"]
    else [])

/-- The length of a sequence value (0 for anything else). -/
def seqLen : Option Value → Nat
  | some (.vlist l) => l.length
  | _ => 0

/-- C6: on a biography document with exactly two nick-name entries the
`nick names` result is a sequence of exactly two strings, one per entry,
not a single concatenated string. -/
theorem C6_nicknames_sequence :
    alookup (DOMHTMLBioParser.parse c6doc) "nick names" =
      some (.vlist [.str "Johnny", .str "Duke"]) ∧
    seqLen (alookup (DOMHTMLBioParser.parse c6doc) "nick names") = 2 :=
  ⟨rfl, rfl⟩

/-- A spouse table row whose first cell (the name) holds no text. -/
def spouseRowNoName : Node := .mk
  (fun q => if q = "./td[2]//text()" then ["info text"] else [])
  noNq

/-- A biography document whose spouse table has a row without a name. -/
def c1SpouseDoc : Node := .mk noSq
  (fun q =>
    if q = "//a[@name=\"spouse\"]/following::table[1]//tr" then [spouseRowNoName]
    else [])

/-- A `Born:` section whose month-day text does not match `%B %d`. -/
def bornLiBad : Node := .mk
  (fun q =>
    if q = ".//a[starts-with(@href, \"/search/name/?birth_monthday=\")]/text()" then
      ["sometime"]
    else [])
  noNq

/-- A biography document with a malformed birth month-day. -/
def c1MonthdayDoc : Node := .mk noSq
  (fun q =>
    if q = "//ul[contains(@class, \"ipc-metadata-list\")]/li[@id=\"born\"]" then
      [bornLiBad]
    else [])

/-- A genres movie anchor with a link and trailing info but no title
text. -/
def genreMovieRowNoTitle : Node := .mk
  (fun q =>
    if q = "./@href" then ["/title/tt0000001/"]
    else if q = "./following-sibling::text()" then [" (1999)"]
    else [])
  noNq

/-- A genres heading anchor whose movie list holds the title-less
anchor. -/
def genreAnchor : Node := .mk
  (fun q => if q = "./text()" then ["Drama"] else [])
  (fun q =>
    if q = "../../following-sibling::ol[1]/li//a[1]" then [genreMovieRowNoTitle]
    else [])

/-- A genres document whose single movie entry lacks a title. -/
def c1GenresDoc : Node := .mk noSq
  (fun q =>
    if q = "//b/a[@name]/following-sibling::a[1]" then [genreAnchor]
    else [])

/-- C1 (counterexample): the three named steps do not complete when the
fields they read are absent or malformed — the spouse transform raises
`AttributeError` on a row without a `name`, the genres per-movie
transform raises `TypeError` on an entry without a `title`, and the
biography date assembly raises `ValueError` on a malformed `monthday`. -/
theorem C1_transforms_raise :
    DOMHTMLBioParser.spouseTf (.vmap [("info", .str "info text")]) =
      .error "AttributeError" ∧
    DOMHTMLPersonGenresParser.movieTf
      (.vmap [("link", .str "/title/tt0000001/"), ("info", .str " (1999)")]) =
      .error "TypeError" ∧
    DOMHTMLBioParser.postprocess_data
      [("birth info", .vmap [("monthday", .str "sometime")])] =
      .error "ValueError" :=
  ⟨rfl, rfl, rfl⟩

/-- C1 (amended): a parse call never raises to the caller — the
exceptions of the previous theorem are absorbed by the fault barriers:
the spouse failure is caught at the rule boundary and the `spouse` field
is omitted while the rest of the document is still extracted; the
date-assembly failure is caught at the parse boundary and the result
degrades to the empty mapping; the genres per-movie failure is caught at
the inner rule boundary and the per-genre mapping degrades. -/
theorem C1_parse_absorbs :
    DOMHTMLBioParser.parse c1SpouseDoc =
      [("nick names", .vlist []), ("mini biography", .vlist []),
       ("trade mark", .vlist []), ("trivia", .vlist []),
       ("quotes", .vlist []), ("salary history", .vlist [])] ∧
    alookup (DOMHTMLBioParser.parse c1SpouseDoc) "spouse" = none ∧
    DOMHTMLBioParser.parse c1MonthdayDoc = [] ∧
    DOMHTMLPersonGenresParser.parse c1GenresDoc =
      [("genres", .vmap [("genres", .vlist [.vmap []])])] :=
  ⟨rfl, rfl, rfl, rfl⟩

/-! Lemmas about the `find`/`rfind` models, for C8. -/

theorem pyFind_eq_none_of_not_mem (cs : List Char) (c : Char) (h : c ∉ cs) :
    pyFind cs c = none := by
  induction cs with
  | nil => rfl
  | cons x rest ih =>
      have hx : ¬x = c := fun hh => h (hh ▸ List.mem_cons_self x rest)
      have hr : c ∉ rest := fun hh => h (List.mem_cons_of_mem _ hh)
      simp [pyFind, hx, ih hr]

theorem pyRFind_eq_none_of_not_mem (cs : List Char) (c : Char) (h : c ∉ cs) :
    pyRFind cs c = none := by
  induction cs with
  | nil => rfl
  | cons x rest ih =>
      have hx : ¬x = c := fun hh => h (hh ▸ List.mem_cons_self x rest)
      have hr : c ∉ rest := fun hh => h (List.mem_cons_of_mem _ hh)
      simp [pyRFind, hx, ih hr]

theorem not_mem_of_pyRFind_none (cs : List Char) (c : Char)
    (h : pyRFind cs c = none) : c ∉ cs := by
  induction cs with
  | nil => simp
  | cons x rest ih =>
      cases hr : pyRFind rest c with
      | some i => simp [pyRFind, hr] at h
      | none =>
          simp only [pyRFind, hr] at h
          by_cases hx : x = c
          · simp [hx] at h
          · simp [hx]
            exact ⟨fun hh => hx hh.symm, ih hr⟩

theorem pyFind_spec (cs : List Char) (c : Char) (b : Nat)
    (h : pyFind cs c = some b) :
    cs.get? b = some c ∧ ∀ x ∈ cs.take b, x ≠ c := by
  induction cs generalizing b with
  | nil => simp [pyFind] at h
  | cons x rest ih =>
      by_cases hx : x = c
      · subst hx
        simp [pyFind] at h
        subst h
        simp
      · simp [pyFind, hx] at h
        obtain ⟨i, hi, hb⟩ := h
        subst hb
        obtain ⟨hg, ht⟩ := ih _ hi
        refine ⟨by simpa using hg, ?_⟩
        intro y hy
        rw [List.take_succ_cons] at hy
        rcases List.mem_cons.mp hy with hy1 | hy1
        · subst hy1
          exact hx
        · exact ht y hy1

theorem pyRFind_spec (cs : List Char) (c : Char) (e : Nat)
    (h : pyRFind cs c = some e) :
    cs.get? e = some c ∧ ∀ x ∈ cs.drop (e + 1), x ≠ c := by
  induction cs generalizing e with
  | nil => simp [pyRFind] at h
  | cons x rest ih =>
      cases hr : pyRFind rest c with
      | some i =>
          simp only [pyRFind, hr] at h
          have he : e = i + 1 := by
            cases h
            rfl
          subst he
          obtain ⟨hg, ht⟩ := ih _ hr
          exact ⟨by simpa using hg, by simpa using ht⟩
      | none =>
          simp only [pyRFind, hr] at h
          by_cases hx : x = c
          · subst hx
            simp at h
            subst h
            refine ⟨rfl, ?_⟩
            intro y hy
            exact fun hyc => (not_mem_of_pyRFind_none rest _ hr) (hyc ▸ hy)
          · simp [hx] at h

/-- C8: `extract_notes` returns the empty string when the input holds no
opening or no closing parenthesis, and otherwise the substring strictly
between the first opening parenthesis (index `b`) and the last closing
one (index `e`), stripped of surrounding whitespace; being a total
function it never raises. -/
theorem C8_extract_notes (s : String) :
    (('(' ∉ s.toList ∨ ')' ∉ s.toList) → extract_notes s = "") ∧
    (∀ b e, pyFind s.toList '(' = some b → pyRFind s.toList ')' = some e →
      s.toList.get? b = some '(' ∧ (∀ x ∈ s.toList.take b, x ≠ '(') ∧
      s.toList.get? e = some ')' ∧ (∀ x ∈ s.toList.drop (e + 1), x ≠ ')') ∧
      extract_notes s =
        pyStrip (String.mk ((s.toList.drop (b + 1)).take (e - (b + 1))))) := by
  constructor
  · intro h
    unfold extract_notes
    rcases h with h | h
    · rw [pyFind_eq_none_of_not_mem _ _ h]
    · rw [pyRFind_eq_none_of_not_mem _ _ h]
      cases pyFind s.toList '(' <;> rfl
  · intro b e hb he
    obtain ⟨hg1, ht1⟩ := pyFind_spec _ _ _ hb
    obtain ⟨hg2, ht2⟩ := pyRFind_spec _ _ _ he
    refine ⟨hg1, ht1, hg2, ht2, ?_⟩
    unfold extract_notes
    rw [hb, he]

/-- Witness for C8: a string without parentheses yields the empty string,
and `x(a b)y` yields the trimmed text between index 1 and index 5. -/
theorem C8_extract_notes_witness :
    extract_notes "abc" = "" ∧
    extract_notes "x(a b)y" =
      pyStrip (String.mk ((("x(a b)y").toList.drop 2).take 3)) :=
  ⟨(C8_extract_notes "abc").1 (Or.inl (by decide)),
   ((C8_extract_notes "x(a b)y").2 1 5 (by rfl) (by rfl)).2.2.2.2⟩

/-- C10: `DOMHTMLPersonGenresParser.postprocess_data` returns the empty
mapping on empty input and otherwise a mapping with exactly one key — the
instance `kind`, which is `genres` by default and `keywords` for the
keywords parser instance of `_OBJECTS` — holding the entire input. -/
theorem C10_genres_postprocess (data : AList) :
    DOMHTMLPersonGenresParser.kind = "genres" ∧
    DOMHTMLPersonGenresParser.keywordsKind = "keywords" ∧
    (data = [] →
      DOMHTMLPersonGenresParser.postprocess_data
        DOMHTMLPersonGenresParser.kind data = .ok [] ∧
      DOMHTMLPersonGenresParser.postprocess_data
        DOMHTMLPersonGenresParser.keywordsKind data = .ok []) ∧
    (data ≠ [] →
      DOMHTMLPersonGenresParser.postprocess_data
        DOMHTMLPersonGenresParser.kind data = .ok [("genres", .vmap data)] ∧
      DOMHTMLPersonGenresParser.postprocess_data
        DOMHTMLPersonGenresParser.keywordsKind data =
          .ok [("keywords", .vmap data)]) := by
  refine ⟨rfl, rfl, ?_, ?_⟩
  · rintro rfl
    exact ⟨rfl, rfl⟩
  · intro h
    have hne : data.isEmpty = false := by
      cases data with
      | nil => exact absurd rfl h
      | cons kv rest => rfl
    constructor <;>
      simp [DOMHTMLPersonGenresParser.postprocess_data, hne,
        DOMHTMLPersonGenresParser.kind, DOMHTMLPersonGenresParser.keywordsKind]

/-- Witness for C10: the empty input yields the empty mapping, a
one-entry input is nested under the instance kind. -/
theorem C10_genres_postprocess_witness :
    DOMHTMLPersonGenresParser.postprocess_data
      DOMHTMLPersonGenresParser.kind [] = .ok [] ∧
    DOMHTMLPersonGenresParser.postprocess_data
      DOMHTMLPersonGenresParser.keywordsKind [("thriller", .vmap [])] =
      .ok [("keywords", .vmap [("thriller", .vmap [])])] :=
  ⟨((C10_genres_postprocess []).2.2.1 rfl).1,
   ((C10_genres_postprocess [("thriller", .vmap [])]).2.2.2 (by simp)).2⟩

/-- C9: `_process_person_award` inserts an output key only when the
corresponding input field is truthy (falsy or missing fields are omitted,
never inserted as empty placeholders), and a present `year` value is the
integer obtained from the stripped input `year` string. -/
theorem C9_award_fields (x out : AList) (h : _process_person_award x = .ok out) :
    (∀ k w, alookup out k = some w → truthyOpt (alookup x k) = true) ∧
    (∀ w, alookup out "year" = some w →
      ∃ s, alookup x "year" = some (.str s) ∧
        ∃ i, pyInt (pyStrip s) = some i ∧ w = .vint i) := by
  unfold _process_person_award at h
  obtain ⟨a1, h1, h⟩ := exceptBind_ok _ _ _ h
  obtain ⟨a2, h2, h⟩ := exceptBind_ok _ _ _ h
  obtain ⟨a3, h3, h⟩ := exceptBind_ok _ _ _ h
  obtain ⟨a4, h4, h⟩ := exceptBind_ok _ _ _ h
  obtain ⟨a5, h5, h⟩ := exceptBind_ok _ _ _ h
  obtain ⟨a6, h6, h⟩ := exceptBind_ok _ _ _ h
  obtain ⟨a7, h7, h⟩ := exceptBind_ok _ _ _ h
  cases h
  constructor
  · intro k w hl
    rcases awardSetRaw_lookup _ _ _ _ h7 k w hl with hl6 | ⟨rfl, ht⟩
    · rcases awardSetStripped_lookup _ _ _ _ h6 k w hl6 with hl5 | ⟨rfl, ht⟩
      · rcases awardSetRaw_lookup _ _ _ _ h5 k w hl5 with hl4 | ⟨rfl, ht⟩
        · rcases awardSetStripped_lookup _ _ _ _ h4 k w hl4 with hl3 | ⟨rfl, ht⟩
          · rcases awardSetStripped_lookup _ _ _ _ h3 k w hl3 with hl2 | ⟨rfl, ht⟩
            · rcases awardSetStripped_lookup _ _ _ _ h2 k w hl2 with hl1 | ⟨rfl, ht⟩
              · rcases awardSetYear_lookup _ _ _ h1 k w hl1 with hl0 | ⟨rfl, ht⟩
                · simp [alookup] at hl0
                · exact ht
              · exact ht
            · exact ht
          · exact ht
        · exact ht
      · exact ht
    · exact ht
  · intro w hl
    rcases awardSetRaw_lookup _ _ _ _ h7 "year" w hl with hl6 | ⟨heq, _⟩
    · rcases awardSetStripped_lookup _ _ _ _ h6 "year" w hl6 with hl5 | ⟨heq, _⟩
      · rcases awardSetRaw_lookup _ _ _ _ h5 "year" w hl5 with hl4 | ⟨heq, _⟩
        · rcases awardSetStripped_lookup _ _ _ _ h4 "year" w hl4 with hl3 | ⟨heq, _⟩
          · rcases awardSetStripped_lookup _ _ _ _ h3 "year" w hl3 with hl2 | ⟨heq, _⟩
            · rcases awardSetStripped_lookup _ _ _ _ h2 "year" w hl2 with hl1 | ⟨heq, _⟩
              · obtain ⟨s, hs, i, hpi, hw⟩ := awardSetYear_year _ _ h1 w hl1
                exact ⟨s, by rw [← hs], i, hpi, hw⟩
              · exact absurd heq (by decide)
            · exact absurd heq (by decide)
          · exact absurd heq (by decide)
        · exact absurd heq (by decide)
      · exact absurd heq (by decide)
    · exact absurd heq (by decide)

/-- Witness for C9 at a concrete award row: the `result` field of the
output comes from a truthy input field, and the output `year` is the
integer parse of the stripped input string. -/
theorem C9_award_fields_witness :
    truthyOpt (alookup
      [("year", .str " 2003 "), ("result", .str "Won"),
       ("movies", .vlist [.str "M"])] "result") = true ∧
    ∃ s, alookup
        [("year", .str " 2003 "), ("result", .str "Won"),
         ("movies", .vlist [.str "M"])] "year" = some (.str s) ∧
      ∃ i, pyInt (pyStrip s) = some i ∧ (Value.vint 2003) = .vint i :=
  ⟨(C9_award_fields
      [("year", .str " 2003 "), ("result", .str "Won"),
       ("movies", .vlist [.str "M"])]
      [("year", .vint 2003), ("result", .str "Won"),
       ("movies", .vlist [.str "M"])] (by rfl)).1 "result" (.str "Won") (by rfl),
   (C9_award_fields
      [("year", .str " 2003 "), ("result", .str "Won"),
       ("movies", .vlist [.str "M"])]
      [("year", .vint 2003), ("result", .str "Won"),
       ("movies", .vlist [.str "M"])] (by rfl)).2 (.vint 2003) (by rfl)⟩

/-! Lemmas about the biography postprocess step, for C5. -/

theorem processWith_empty (ev : String) (data : AList) :
    DOMHTMLBioParser.processWith ev data [] = .ok data := rfl

theorem processWith_preserve (ev : String) (data info : AList) (k : String)
    (d : AList) (hkdate : ¬(ev ++ " date") = k)
    (hdata : alookup data k = none)
    (hinfo : alookup info k = none)
    (hdn : alookup info "death notes" = none)
    (h : DOMHTMLBioParser.processWith ev data info = .ok d) :
    alookup d k = none := by
  unfold DOMHTMLBioParser.processWith at h
  obtain ⟨md, hmd, h⟩ := exceptBindE_ok _ _ _ h
  have hdn2 : alookup (dpop (dpop info "monthday") "year") "death notes" = none :=
    alookup_dpop_none _ _ _ (alookup_dpop_none _ _ _ hdn)
  have hinfo2 : alookup (dpop (dpop info "monthday") "year") k = none :=
    alookup_dpop_none _ _ _ (alookup_dpop_none _ _ _ hinfo)
  simp only at h
  split at h
  · cases h
    rw [alookup_dupdate_none _ _ _ hinfo2]
    split
    · exact hdata
    · rw [alookup_dset, if_neg hkdate]
      exact hdata
  · rename_i s heq
    rw [hdn2] at heq
    cases heq
  · rename_i heq hne
    rw [hdn2] at hne
    cases hne

theorem deathInfo_extract_empty (n : Node)
    (h : n.nq DOMHTMLBioParser.deathSectionQuery = []) :
    GRule.extract evalExt2 DOMHTMLBioParser.rDeathInfo n = [] := by
  simp [DOMHTMLBioParser.rDeathInfo, GRule.extract, RKey.resolve, evalExt2,
    RulesE.eval, sectionRoot, NQ, h]

theorem bio_raw_death_none (n : Node)
    (h : n.nq DOMHTMLBioParser.deathSectionQuery = [])
    (k : String)
    (hk : k = "death date" ∨ k = "death place" ∨ k = "death notes" ∨
      k = "death info") :
    alookup (foldLayer evalExt2 DOMHTMLBioParser.rules n) k = none := by
  rw [foldLayer_eq_foldFrom]
  apply alookup_foldFrom_none
  · intro r hr
    have hex := deathInfo_extract_empty n h
    simp [DOMHTMLBioParser.rules] at hr
    rcases hk with rfl | rfl | rfl | rfl <;>
      rcases hr with rfl | rfl | rfl | rfl | rfl | rfl | rfl | rfl | rfl | rfl | rfl | rfl | rfl <;>
        first
          | exact extract_lit_ne _ _ _ _ _ rfl (by decide)
          | (rw [hex]; rfl)
  · rfl

theorem birthInfo_eval (n : Node) :
    evalExt2 DOMHTMLBioParser.rBirthInfo.ext n = .ok none ∨
    ∃ root, evalExt2 DOMHTMLBioParser.rBirthInfo.ext n =
        .ok (some (.vmap (foldLayer evalExt1 DOMHTMLBioParser._birth_rules root))) := by
  cases hroot : (n.nq DOMHTMLBioParser.bornSectionQuery).head? with
  | none =>
      left
      simp [DOMHTMLBioParser.rBirthInfo, evalExt2, RulesE.eval, sectionRoot,
        NQ, hroot]
  | some root =>
      cases hemp : (foldLayer evalExt1 DOMHTMLBioParser._birth_rules root).isEmpty with
      | true =>
          left
          simp [DOMHTMLBioParser.rBirthInfo, evalExt2, RulesE.eval,
            sectionRoot, NQ, hroot, hemp]
      | false =>
          right
          refine ⟨root, ?_⟩
          simp [DOMHTMLBioParser.rBirthInfo, evalExt2, RulesE.eval,
            sectionRoot, NQ, hroot, hemp]

theorem birth_fold_death_none (root : Node) (k : String)
    (hk : k = "death date" ∨ k = "death place" ∨ k = "death notes" ∨
      k = "death info") :
    alookup (foldLayer evalExt1 DOMHTMLBioParser._birth_rules root) k = none := by
  rw [foldLayer_eq_foldFrom]
  apply alookup_foldFrom_none
  · intro r hr
    simp [DOMHTMLBioParser._birth_rules] at hr
    rcases hk with rfl | rfl | rfl | rfl <;>
      rcases hr with rfl | rfl | rfl <;>
        exact extract_lit_ne _ _ _ _ _ rfl (by decide)
  · rfl

theorem birthInfo_extract_shape (n : Node) (v : Value)
    (hl : alookup (GRule.extract evalExt2 DOMHTMLBioParser.rBirthInfo n)
      "birth info" = some v) :
    ∃ m, v = .vmap m ∧
      alookup m "death date" = none ∧ alookup m "death place" = none ∧
      alookup m "death notes" = none ∧ alookup m "death info" = none := by
  have hkey : DOMHTMLBioParser.rBirthInfo.key = RKey.lit "birth info" := rfl
  have hfe : DOMHTMLBioParser.rBirthInfo.fe = none := rfl
  rcases birthInfo_eval n with hev | ⟨root, hev⟩
  · rw [show GRule.extract evalExt2 DOMHTMLBioParser.rBirthInfo n = [] from by
      simp only [GRule.extract, hkey, hfe, RKey.resolve, hev]] at hl
    simp [alookup] at hl
  · rw [show GRule.extract evalExt2 DOMHTMLBioParser.rBirthInfo n =
        [("birth info",
          .vmap (foldLayer evalExt1 DOMHTMLBioParser._birth_rules root))] from by
      simp only [GRule.extract, hkey, hfe, RKey.resolve, hev]] at hl
    simp [alookup] at hl
    exact ⟨foldLayer evalExt1 DOMHTMLBioParser._birth_rules root, hl.symm,
      birth_fold_death_none root _ (Or.inl rfl),
      birth_fold_death_none root _ (Or.inr (Or.inl rfl)),
      birth_fold_death_none root _ (Or.inr (Or.inr (Or.inl rfl))),
      birth_fold_death_none root _ (Or.inr (Or.inr (Or.inr rfl)))⟩

theorem bio_raw_birthinfo (n : Node) (v : Value)
    (hv : alookup (foldLayer evalExt2 DOMHTMLBioParser.rules n) "birth info" =
      some v) :
    alookup (GRule.extract evalExt2 DOMHTMLBioParser.rBirthInfo n)
      "birth info" = some v := by
  rw [foldLayer_eq_foldFrom] at hv
  rcases alookup_foldFrom_some _ _ _ _ _ _ hv with ⟨r, hr, hrl⟩ | hacc
  · simp [DOMHTMLBioParser.rules] at hr
    rcases hr with rfl | rfl | rfl | rfl | rfl | rfl | rfl | rfl | rfl | rfl | rfl | rfl | rfl <;>
      first
        | exact hrl
        | (rw [extract_lit_ne _ _ _ _ _ rfl (by decide)] at hrl; cases hrl)
  · simp [alookup] at hacc

theorem processEvent_birth_preserve (raw d1 : AList) (k : String)
    (hk : k = "death date" ∨ k = "death place" ∨ k = "death notes" ∨
      k = "death info")
    (hraw : alookup raw k = none)
    (hbshape : ∀ v, alookup raw "birth info" = some v →
      ∃ m, v = Value.vmap m ∧
        alookup m "death date" = none ∧ alookup m "death place" = none ∧
        alookup m "death notes" = none ∧ alookup m "death info" = none)
    (h : DOMHTMLBioParser.processEvent "birth" raw = .ok d1) :
    alookup d1 k = none := by
  unfold DOMHTMLBioParser.processEvent at h
  have hbi : ("birth" ++ " info" : String) = "birth info" := rfl
  rw [hbi] at h
  split at h
  · rw [processWith_empty] at h
    cases h
    exact alookup_dpop_none _ _ _ hraw
  · rename_i m heq
    obtain ⟨m0, hm0, hdd, hdp, hdn, hdi⟩ := hbshape _ heq
    cases hm0
    refine processWith_preserve _ _ _ k _ ?_ ?_ ?_ hdn h
    · rcases hk with rfl | rfl | rfl | rfl <;> decide
    · exact alookup_dpop_none _ _ _ hraw
    · rcases hk with rfl | rfl | rfl | rfl
      · exact hdd
      · exact hdp
      · exact hdn
      · exact hdi
  · simp at h

theorem processEvent_death_empty (d1 d2 : AList)
    (hdi : alookup d1 "death info" = none)
    (h : DOMHTMLBioParser.processEvent "death" d1 = .ok d2) :
    d2 = dpop d1 "death info" := by
  unfold DOMHTMLBioParser.processEvent at h
  have hdie : ("death" ++ " info" : String) = "death info" := rfl
  rw [hdie, hdi] at h
  simp only [processWith_empty] at h
  cases h
  rfl

/-- C5: when the death-info section query matches no node, the mapping
returned by the biography parse contains none of the keys `death date`,
`death place`, `death notes`. -/
theorem C5_no_death_keys (n : Node)
    (h : n.nq DOMHTMLBioParser.deathSectionQuery = []) :
    alookup (DOMHTMLBioParser.parse n) "death date" = none ∧
    alookup (DOMHTMLBioParser.parse n) "death place" = none ∧
    alookup (DOMHTMLBioParser.parse n) "death notes" = none := by
  unfold DOMHTMLBioParser.parse runParser
  cases hpost : DOMHTMLBioParser.postprocess_data
      (foldLayer evalExt2 DOMHTMLBioParser.rules n) with
  | error e => exact ⟨rfl, rfl, rfl⟩
  | ok dfinal =>
      unfold DOMHTMLBioParser.postprocess_data at hpost
      obtain ⟨d1, hb, hpost⟩ := exceptBindE_ok _ _ _ hpost
      obtain ⟨d2, hd, hpost⟩ := exceptBindE_ok _ _ _ hpost
      have h1 : ∀ k, (k = "death date" ∨ k = "death place" ∨
          k = "death notes" ∨ k = "death info") → alookup d1 k = none := by
        intro k hk
        exact processEvent_birth_preserve _ _ k hk
          (bio_raw_death_none n h k hk)
          (fun v hv => birthInfo_extract_shape n v (bio_raw_birthinfo n v hv))
          hb
      have hd2 : d2 = dpop d1 "death info" :=
        processEvent_death_empty _ _ (h1 _ (Or.inr (Or.inr (Or.inr rfl)))) hd
      have h2 : ∀ k, (k = "death date" ∨ k = "death place" ∨
          k = "death notes" ∨ k = "death info") → alookup d2 k = none := by
        intro k hk
        rw [hd2]
        exact alookup_dpop_none _ _ _ (h1 k hk)
      have h3 : ∀ k, (k = "death date" ∨ k = "death place" ∨
          k = "death notes") → alookup dfinal k = none := by
        intro k hk
        split at hpost
        · cases hpost
          rw [alookup_dset]
          rw [if_neg (by rcases hk with rfl | rfl | rfl <;> decide)]
          exact h2 k (by tauto)
        · cases hpost
          exact h2 k (by tauto)
      exact ⟨h3 _ (Or.inl rfl), h3 _ (Or.inr (Or.inl rfl)),
        h3 _ (Or.inr (Or.inr rfl))⟩

/-- Witness for C5: on a document where no query matches at all (in
particular the death-info section query), the parse result carries no
death keys. -/
theorem C5_no_death_keys_witness :
    emptyDoc.nq DOMHTMLBioParser.deathSectionQuery = [] ∧
    alookup (DOMHTMLBioParser.parse emptyDoc) "death date" = none ∧
    alookup (DOMHTMLBioParser.parse emptyDoc) "death place" = none ∧
    alookup (DOMHTMLBioParser.parse emptyDoc) "death notes" = none :=
  ⟨rfl, (C5_no_death_keys emptyDoc rfl).1, (C5_no_death_keys emptyDoc rfl).2.1,
    (C5_no_death_keys emptyDoc rfl).2.2⟩

end Cinemagoer
